import Mathlib

/-!
Verification of the conlang pattern-compilation and generation engine.

The development shallowly embeds the two core modules of the repository:

* `phone` — the phoneme catalog (consonants, vowels, non-pulmonic
  consonants), their canonical code characters, the place and manner
  classification tables, and the per-family character parsers
  (phone.rs).
* `gen` — the pattern parser that compiles a pattern string plus an
  inventory into a `WordGenerator`, and the sampler that draws one
  phoneme per slot (gen.rs).

Rust strings are modeled as `List Char`; a random source is modeled as a
stream `Nat → Nat` of the values successive `next_u64` calls return.
Computations that can hit a Rust panic (`todo!()`, a remainder by zero,
an out-of-bounds index) return `RunResult`/`Option` values whose
`abort`/`none` case marks the panic.
-/

set_option maxHeartbeats 1000000

/-- Outcome of running a fallible Rust computation: a value, a typed error,
or a Rust panic (unimplemented code, remainder by zero, bad index). -/
inductive RunResult (ε : Type) (α : Type) where
  | ok (val : α)
  | err (e : ε)
  | abort
deriving DecidableEq
namespace phone

/-- Typed parse failures shared by every single-symbol parse in phone.rs. -/
inductive ParseError where
  | NoInput
  | TooManyCharacters
  | UnknownCharacter (c : Char)
deriving DecidableEq

/-- Place of articulation, from phone.rs. -/
inductive Place where
  | Bilabial
  | Labiodental
  | Dental
  | Alveolar
  | PostAlveolar
  | Retroflex
  | Palatal
  | Velar
  | Uvular
  | Pharyngeal
  | Glottal
deriving DecidableEq

/-- Manner of articulation, from phone.rs. -/
inductive Manner where
  | Plosive
  | Nasal
  | Trill
  | Tap
  | Fricative
  | LateralFricative
  | Approximant
  | LateralApproximant
deriving DecidableEq

/-- The pulmonic consonant catalog of phone.rs. -/
inductive Consonant where
  | P
  | B
  | T
  | D
  | TRetroflex
  | DRetroflex
  | C
  | JPalatal
  | K
  | G
  | Q
  | GCap
  | GlottalStop
  | M
  | MHook
  | N
  | NRetroflex
  | NPalatal
  | NVelar
  | NUvular
  | BCap
  | Rrr
  | RCap
  | VTap
  | RTap
  | RFlap
  | Phi
  | Beta
  | F
  | V
  | Theta
  | Del
  | S
  | Z
  | Esh
  | Ezh
  | Sh
  | Zh
  | Ch
  | JCurl
  | X
  | Gamma
  | Xh
  | Yr
  | HBar
  | Crook
  | H
  | HCurl
  | LBelt
  | Lezh
  | VHook
  | RTilt
  | RTiltHook
  | J
  | MTiltTail
  | L
  | Ll
  | Lambda
  | LCap
deriving DecidableEq

/-- The vowel catalog of phone.rs. -/
inductive Vowel where
  | I
  | Y
  | IBar
  | UBar
  | Uu
  | U
  | Ii
  | YCap
  | OmegaFlip
  | E
  | OCross
  | EReverse
  | OBar
  | RamsHorns
  | O
  | Schwa
  | EOpen
  | Oe
  | Ze
  | EpsilonClosedReversed
  | VFlip
  | OOpen
  | Ae
  | AFlip
  | A
  | OeSmall
  | AScript
  | AScriptFlip
deriving DecidableEq

/-- The non-pulmonic consonant catalog of phone.rs. -/
inductive NonPulmonicConsonant where
  | BilabialClick
  | DentalClick
  | Postalveoalar
  | Palatoalveolar
  | AlveolarLateral
  | BilabialImplosive
  | DentalImplosive
  | Palatal
  | Velar
  | Uvular
deriving DecidableEq

/-- ALL_CONSONANTS from phone.rs, in source order. -/
def ALL_CONSONANTS : List Consonant :=
  [.P, .B, .T, .D, .TRetroflex, .DRetroflex, .C, .JPalatal, .K, .G, .Q, .GCap, .GlottalStop, .M, .MHook, .N, .NRetroflex, .NPalatal, .NVelar, .NUvular, .BCap, .Rrr, .RCap, .VTap, .RTap, .RFlap, .Phi, .Beta, .F, .V, .Theta, .Del, .S, .Z, .Esh, .Ezh, .Sh, .Zh, .Ch, .JCurl, .X, .Gamma, .Xh, .Yr, .HBar, .Crook, .H, .HCurl, .LBelt, .Lezh, .VHook, .RTilt, .RTiltHook, .J, .MTiltTail, .L, .Ll, .Lambda, .LCap]

/-- ALL_VOWELS from phone.rs, in source order. -/
def ALL_VOWELS : List Vowel :=
  [.I, .Y, .IBar, .UBar, .Uu, .U, .Ii, .YCap, .OmegaFlip, .E, .OCross, .EReverse, .OBar, .RamsHorns, .O, .Schwa, .EOpen, .Oe, .Ze, .EpsilonClosedReversed, .VFlip, .OOpen, .Ae, .AFlip, .A, .OeSmall, .AScript, .AScriptFlip]

/-- ALL_NON_PULMONIC_CONSTANTS from phone.rs, in source order. -/
def ALL_NON_PULMONIC_CONSTANTS : List NonPulmonicConsonant :=
  [.BilabialClick, .DentalClick, .Postalveoalar, .Palatoalveolar, .AlveolarLateral, .BilabialImplosive, .DentalImplosive, .Palatal, .Velar, .Uvular]

/-- Canonical code character of each consonant (Consonant::code). -/
def Consonant.code : Consonant → Char
  | .P => 'p'
  | .B => 'b'
  | .T => 't'
  | .D => 'd'
  | .TRetroflex => 'ʈ'
  | .DRetroflex => 'ɖ'
  | .C => 'c'
  | .JPalatal => 'ɟ'
  | .K => 'k'
  | .G => 'g'
  | .Q => 'q'
  | .GCap => 'ɢ'
  | .GlottalStop => 'ʔ'
  | .M => 'm'
  | .MHook => 'ɱ'
  | .N => 'n'
  | .NRetroflex => 'ɳ'
  | .NPalatal => 'ɲ'
  | .NVelar => 'ŋ'
  | .NUvular => 'ɴ'
  | .BCap => 'ʙ'
  | .Rrr => 'r'
  | .RCap => 'ʀ'
  | .VTap => 'ⱱ'
  | .RTap => 'ɾ'
  | .RFlap => 'ɽ'
  | .Phi => 'ɸ'
  | .Beta => 'β'
  | .F => 'f'
  | .V => 'v'
  | .Theta => 'θ'
  | .Del => 'ð'
  | .S => 's'
  | .Z => 'z'
  | .Esh => 'ʃ'
  | .Ezh => 'ʒ'
  | .Sh => 'ʂ'
  | .Zh => 'ʐ'
  | .Ch => 'ç'
  | .JCurl => 'ʝ'
  | .X => 'x'
  | .Gamma => 'ɣ'
  | .Xh => 'χ'
  | .Yr => 'ʁ'
  | .HBar => 'ħ'
  | .Crook => 'ʕ'
  | .H => 'h'
  | .HCurl => 'ɦ'
  | .LBelt => 'ɬ'
  | .Lezh => 'ɮ'
  | .VHook => 'ʋ'
  | .RTilt => 'ɹ'
  | .RTiltHook => 'ɻ'
  | .J => 'j'
  | .MTiltTail => 'ɰ'
  | .L => 'l'
  | .Ll => 'ɭ'
  | .Lambda => 'ʎ'
  | .LCap => 'ʟ'

/-- Manner of articulation of each consonant (Consonant::manner). -/
def Consonant.manner : Consonant → Manner
  | .P => .Plosive
  | .B => .Plosive
  | .T => .Plosive
  | .D => .Plosive
  | .TRetroflex => .Plosive
  | .DRetroflex => .Plosive
  | .C => .Plosive
  | .JPalatal => .Plosive
  | .K => .Plosive
  | .G => .Plosive
  | .Q => .Plosive
  | .GCap => .Plosive
  | .GlottalStop => .Plosive
  | .M => .Nasal
  | .MHook => .Nasal
  | .N => .Nasal
  | .NRetroflex => .Nasal
  | .NPalatal => .Nasal
  | .NVelar => .Nasal
  | .NUvular => .Nasal
  | .BCap => .Trill
  | .Rrr => .Trill
  | .RCap => .Trill
  | .VTap => .Tap
  | .RTap => .Tap
  | .RFlap => .Tap
  | .Phi => .Fricative
  | .Beta => .Fricative
  | .F => .Fricative
  | .V => .Fricative
  | .Theta => .Fricative
  | .Del => .Fricative
  | .S => .Fricative
  | .Z => .Fricative
  | .Esh => .Fricative
  | .Ezh => .Fricative
  | .Sh => .Fricative
  | .Zh => .Fricative
  | .Ch => .Fricative
  | .JCurl => .Fricative
  | .X => .Fricative
  | .Gamma => .Fricative
  | .Xh => .Fricative
  | .Yr => .Fricative
  | .HBar => .Fricative
  | .Crook => .Fricative
  | .H => .Fricative
  | .HCurl => .Fricative
  | .LBelt => .LateralFricative
  | .Lezh => .LateralFricative
  | .VHook => .Approximant
  | .RTilt => .Approximant
  | .RTiltHook => .Approximant
  | .J => .Approximant
  | .MTiltTail => .Approximant
  | .L => .LateralApproximant
  | .Ll => .LateralApproximant
  | .Lambda => .LateralApproximant
  | .LCap => .LateralApproximant

/-- Place of articulation of each consonant (Consonant::place). -/
def Consonant.place : Consonant → Place
  | .P => .Bilabial
  | .B => .Bilabial
  | .T => .Alveolar
  | .D => .Alveolar
  | .TRetroflex => .Retroflex
  | .DRetroflex => .Retroflex
  | .C => .Palatal
  | .JPalatal => .Palatal
  | .K => .Velar
  | .G => .Velar
  | .Q => .Uvular
  | .GCap => .Uvular
  | .GlottalStop => .Glottal
  | .M => .Bilabial
  | .MHook => .Labiodental
  | .N => .Alveolar
  | .NRetroflex => .Retroflex
  | .NPalatal => .Palatal
  | .NVelar => .Velar
  | .NUvular => .Uvular
  | .BCap => .Bilabial
  | .Rrr => .Alveolar
  | .RCap => .Uvular
  | .VTap => .Labiodental
  | .RTap => .Alveolar
  | .RFlap => .Retroflex
  | .Phi => .Bilabial
  | .Beta => .Bilabial
  | .F => .Labiodental
  | .V => .Labiodental
  | .Theta => .Dental
  | .Del => .Dental
  | .S => .Alveolar
  | .Z => .Alveolar
  | .Esh => .PostAlveolar
  | .Ezh => .PostAlveolar
  | .Sh => .Retroflex
  | .Zh => .Retroflex
  | .Ch => .Palatal
  | .JCurl => .Palatal
  | .X => .Velar
  | .Gamma => .Velar
  | .Xh => .Uvular
  | .Yr => .Uvular
  | .HBar => .Pharyngeal
  | .Crook => .Pharyngeal
  | .H => .Glottal
  | .HCurl => .Glottal
  | .LBelt => .Alveolar
  | .Lezh => .Alveolar
  | .VHook => .Labiodental
  | .RTilt => .Alveolar
  | .RTiltHook => .Retroflex
  | .J => .Palatal
  | .MTiltTail => .Velar
  | .L => .Alveolar
  | .Ll => .Retroflex
  | .Lambda => .Palatal
  | .LCap => .Velar

/-- Canonical code character of each vowel (Vowel::code). -/
def Vowel.code : Vowel → Char
  | .I => 'i'
  | .Y => 'y'
  | .IBar => 'ɨ'
  | .UBar => 'ʉ'
  | .Uu => 'ɯ'
  | .U => 'u'
  | .Ii => 'ɪ'
  | .YCap => 'ʏ'
  | .OmegaFlip => 'ʊ'
  | .E => 'e'
  | .OCross => 'ø'
  | .EReverse => 'ɘ'
  | .OBar => 'ɵ'
  | .RamsHorns => 'ɤ'
  | .O => 'o'
  | .Schwa => 'ə'
  | .EOpen => 'ɛ'
  | .Oe => 'œ'
  | .Ze => 'ɜ'
  | .EpsilonClosedReversed => 'ɞ'
  | .VFlip => 'ʌ'
  | .OOpen => 'ɔ'
  | .Ae => 'æ'
  | .AFlip => 'ɐ'
  | .A => 'a'
  | .OeSmall => 'ɶ'
  | .AScript => 'ɑ'
  | .AScriptFlip => 'ɒ'

/-- Canonical code character of each non-pulmonic consonant (NonPulmonicConsonant::code). -/
def NonPulmonicConsonant.code : NonPulmonicConsonant → Char
  | .BilabialClick => 'ʘ'
  | .DentalClick => 'ǀ'
  | .Postalveoalar => 'ǃ'
  | .Palatoalveolar => 'ǂ'
  | .AlveolarLateral => 'ǁ'
  | .BilabialImplosive => 'ɓ'
  | .DentalImplosive => 'ɗ'
  | .Palatal => 'ʄ'
  | .Velar => 'ɠ'
  | .Uvular => 'ʛ'

/-- TryFrom char for Consonant in phone.rs. -/
def Consonant.tryFrom : Char → Except ParseError Consonant
  | 'p' => .ok .P
  | 'b' => .ok .B
  | 't' => .ok .T
  | 'd' => .ok .D
  | 'ʈ' => .ok .TRetroflex
  | 'ɖ' => .ok .DRetroflex
  | 'c' => .ok .C
  | 'ɟ' => .ok .JPalatal
  | 'k' => .ok .K
  | 'g' => .ok .G
  | 'q' => .ok .Q
  | 'ɢ' => .ok .GCap
  | 'ʔ' => .ok .GlottalStop
  | 'm' => .ok .M
  | 'ɱ' => .ok .MHook
  | 'n' => .ok .N
  | 'ɳ' => .ok .NRetroflex
  | 'ɲ' => .ok .NPalatal
  | 'ŋ' => .ok .NVelar
  | 'ɴ' => .ok .NUvular
  | 'ʙ' => .ok .BCap
  | 'r' => .ok .Rrr
  | 'ʀ' => .ok .RCap
  | 'ⱱ' => .ok .VTap
  | 'ɾ' => .ok .RTap
  | 'ɽ' => .ok .RFlap
  | 'ɸ' => .ok .Phi
  | 'β' => .ok .Beta
  | 'f' => .ok .F
  | 'v' => .ok .V
  | 'θ' => .ok .Theta
  | 'ð' => .ok .Del
  | 's' => .ok .S
  | 'z' => .ok .Z
  | 'ʃ' => .ok .Esh
  | 'ʒ' => .ok .Ezh
  | 'ʂ' => .ok .Sh
  | 'ʐ' => .ok .Zh
  | 'ç' => .ok .Ch
  | 'ʝ' => .ok .JCurl
  | 'x' => .ok .X
  | 'ɣ' => .ok .Gamma
  | 'χ' => .ok .Xh
  | 'ʁ' => .ok .Yr
  | 'ħ' => .ok .HBar
  | 'ʕ' => .ok .Crook
  | 'h' => .ok .H
  | 'ɦ' => .ok .HCurl
  | 'ɬ' => .ok .LBelt
  | 'ɮ' => .ok .Lezh
  | 'ʋ' => .ok .VHook
  | 'ɹ' => .ok .RTilt
  | 'ɻ' => .ok .RTiltHook
  | 'j' => .ok .J
  | 'ɰ' => .ok .MTiltTail
  | 'l' => .ok .L
  | 'ɭ' => .ok .Ll
  | 'ʎ' => .ok .Lambda
  | 'ʟ' => .ok .LCap
  | c => .error (.UnknownCharacter c)

/-- TryFrom char for Vowel in phone.rs. -/
def Vowel.tryFrom : Char → Except ParseError Vowel
  | 'i' => .ok .I
  | 'y' => .ok .Y
  | 'ɨ' => .ok .IBar
  | 'ʉ' => .ok .UBar
  | 'ɯ' => .ok .Uu
  | 'u' => .ok .U
  | 'ɪ' => .ok .Ii
  | 'ʏ' => .ok .YCap
  | 'ʊ' => .ok .OmegaFlip
  | 'e' => .ok .E
  | 'ø' => .ok .OCross
  | 'ɘ' => .ok .EReverse
  | 'ɵ' => .ok .OBar
  | 'ɤ' => .ok .RamsHorns
  | 'o' => .ok .O
  | 'ə' => .ok .Schwa
  | 'ɛ' => .ok .EOpen
  | 'œ' => .ok .Oe
  | 'ɜ' => .ok .Ze
  | 'ɞ' => .ok .EpsilonClosedReversed
  | 'ʌ' => .ok .VFlip
  | 'ɔ' => .ok .OOpen
  | 'æ' => .ok .Ae
  | 'ɐ' => .ok .AFlip
  | 'a' => .ok .A
  | 'ɶ' => .ok .OeSmall
  | 'ɑ' => .ok .AScript
  | 'ɒ' => .ok .AScriptFlip
  | c => .error (.UnknownCharacter c)

/-- TryFrom char for NonPulmonicConsonant in phone.rs. -/
def NonPulmonicConsonant.tryFrom : Char → Except ParseError NonPulmonicConsonant
  | 'ʘ' => .ok .BilabialClick
  | 'ǀ' => .ok .DentalClick
  | 'ǃ' => .ok .Postalveoalar
  | 'ǂ' => .ok .Palatoalveolar
  | 'ǁ' => .ok .AlveolarLateral
  | 'ɓ' => .ok .BilabialImplosive
  | 'ɗ' => .ok .DentalImplosive
  | 'ʄ' => .ok .Palatal
  | 'ɠ' => .ok .Velar
  | 'ʛ' => .ok .Uvular
  | c => .error (.UnknownCharacter c)

/-- TryFrom char for Place in phone.rs. The body of the Rust implementation
is `todo!()`, which panics for every input character, so the embedding
aborts unconditionally. -/
def Place.tryFrom (_ : Char) : RunResult ParseError Place :=
  .abort

/-- TryFrom char for Manner in phone.rs. The body of the Rust implementation
is `todo!()`, which panics for every input character, so the embedding
aborts unconditionally. -/
def Manner.tryFrom (_ : Char) : RunResult ParseError Manner :=
  .abort

/-- Tagged union over the three phoneme families (phone.rs `Phoneme`). -/
inductive Phoneme where
  | Consonant (c : Consonant)
  | Vowel (v : Vowel)
  | NonPulmonicConsonant (k : NonPulmonicConsonant)
deriving DecidableEq

/-- Phoneme::code dispatches to the family code tables. -/
def Phoneme.code : Phoneme → Char
  | .Consonant c => c.code
  | .Vowel v => v.code
  | .NonPulmonicConsonant k => k.code

/-- An ordered sequence of phonemes (phone.rs `Syllable`). -/
structure Syllable where
  inner : List Phoneme
deriving DecidableEq

/-- Syllable::new copies the given sequence. -/
def Syllable.new (seq : List Phoneme) : Syllable :=
  ⟨seq⟩

/-- Syllable::parts exposes the stored sequence. -/
def Syllable.parts (s : Syllable) : List Phoneme :=
  s.inner

/-- The working phoneme pool for one generation session (phone.rs
`Inventory`): three caller-provided lists, stored unchanged. -/
structure Inventory where
  consonants : List Consonant
  vowels : List Vowel
  nonPulmonicConsonants : List NonPulmonicConsonant
deriving DecidableEq

/-- Inventory::with_everything selects the full catalog. -/
def Inventory.withEverything : Inventory :=
  ⟨ALL_CONSONANTS, ALL_VOWELS, ALL_NON_PULMONIC_CONSTANTS⟩

end phone
namespace gen

/-- Typed parse failures of the pattern parser (gen.rs `ParseError`). -/
inductive ParseError where
  | NoInput
  | UnknownCharacter (c : Char)
deriving DecidableEq

/-- Characters the Rust `str::split_ascii_whitespace` splitter treats as
separators (`u8::is_ascii_whitespace`: space, horizontal tab, line feed,
form feed, carriage return). -/
def isAsciiWs (c : Char) : Bool :=
  c = ' ' || c = '\t' || c = '\n' || c = '\x0c' || c = '\r'

/-- Model of `str::split_ascii_whitespace`: the maximal runs of
non-separator characters, in order, with no empty runs. -/
def splitAsciiWhitespace : List Char → List (List Char)
  | [] => []
  | c :: rest =>
    if isAsciiWs c then
      splitAsciiWhitespace rest
    else
      (c :: rest).takeWhile (fun x => !isAsciiWs x) ::
        splitAsciiWhitespace ((c :: rest).dropWhile (fun x => !isAsciiWs x))
termination_by s => s.length
decreasing_by
  · simp
  · rename_i h
    rw [List.dropWhile_cons]
    simp only [h, Bool.not_false, if_pos, List.length_cons]
    exact Nat.lt_succ_of_le (List.dropWhile_suffix _).length_le

/-- One compiled pattern slot (gen.rs `PhonemeGenerator`): the display
glyph taken from the pattern text, the resolved candidate phonemes, and
the (never yet populated) weights. Weights are u8 in Rust; no arithmetic
is ever performed on them. -/
structure PhonemeGenerator where
  display : List Char
  choices : List phone.Phoneme
  weights : List Nat
deriving DecidableEq

/-- PhonemeGenerator::from_character_class: display is the first character
of the remaining pattern text, candidates are every option converted to a
`Phoneme`, and the remainder drops that character. Rust slices the first
byte; that coincides with the first character because the only callers
reach this with the single-byte triggers `C` and `V` in front. -/
def PhonemeGenerator.fromCharacterClass {T : Type} (conv : T → phone.Phoneme)
    (src : List Char) (options : List T) : PhonemeGenerator × List Char :=
  ({ display := src.take 1, choices := options.map conv, weights := [] }, src.drop 1)

/-- PhonemeGenerator::from_character_class_filtered: like
`fromCharacterClass` but keeps only the options passing the filter, via
`Iterator::filter_map`. -/
def PhonemeGenerator.fromCharacterClassFiltered {T : Type} (conv : T → phone.Phoneme)
    (src : List Char) (options : List T) (filter : T → Bool) :
    PhonemeGenerator × List Char :=
  ({ display := src.take 1,
     choices := options.filterMap (fun x => if filter x then some (conv x) else none),
     weights := [] }, src.drop 1)

/-- PhonemeGenerator::parse: dispatch on the first remaining character.
`C` and `V` resolve against the inventory; `[` and `(` hit `todo!()`;
anything else first consults `Place::try_from` — whose body is `todo!()`
and therefore panics before any filtered slot or the `UnknownCharacter`
fallthrough (itself a `todo!()`) can be reached. -/
def PhonemeGenerator.parse (src : List Char) (inv : phone.Inventory) :
    RunResult ParseError (PhonemeGenerator × List Char) :=
  match src with
  | [] => .err .NoInput
  | first :: _ =>
    if first = 'C' then
      .ok (fromCharacterClass phone.Phoneme.Consonant src inv.consonants)
    else if first = 'V' then
      .ok (fromCharacterClass phone.Phoneme.Vowel src inv.vowels)
    else if first = '[' then
      .abort
    else if first = '(' then
      .abort
    else
      match phone.Place.tryFrom first with
      | .ok place =>
        .ok (fromCharacterClassFiltered phone.Phoneme.Consonant src inv.consonants
          (fun x => x.place == place))
      | .abort => .abort
      | .err _ =>
        match phone.Manner.tryFrom first with
        | .ok manner =>
          .ok (fromCharacterClassFiltered phone.Phoneme.Consonant src inv.consonants
            (fun x => x.manner == manner))
        | .abort => .abort
        | .err _ => .abort

/-- PhonemeGenerator::generate: index the candidate list by the drawn
value modulo the list length. With an empty candidate list the Rust
remainder panics, modeled by `none`; otherwise the index is in bounds. -/
def PhonemeGenerator.generate (pg : PhonemeGenerator) (draw : Nat) : Option phone.Phoneme :=
  pg.choices[draw % pg.choices.length]?

/-- One compiled syllable shape (gen.rs `SyllableGenerator`). -/
structure SyllableGenerator where
  phonemes : List PhonemeGenerator
deriving DecidableEq

/-- The while-loop body of SyllableGenerator::parse: repeatedly parse one
slot from the remaining text until it is exhausted, collecting the slots
in order. Every successful `PhonemeGenerator.parse` leaves the tail of
its input, which justifies termination. -/
def SyllableGenerator.parseAux (inv : phone.Inventory) :
    List Char → RunResult ParseError (List PhonemeGenerator)
  | [] => .ok []
  | c :: rest =>
    match h : PhonemeGenerator.parse (c :: rest) inv with
    | .err e => .err e
    | .abort => .abort
    | .ok (ph, leftover) =>
      match SyllableGenerator.parseAux inv leftover with
      | .err e => .err e
      | .abort => .abort
      | .ok phs => .ok (ph :: phs)
termination_by s => s.length
decreasing_by
  simp only [PhonemeGenerator.parse, phone.Place.tryFrom, phone.Manner.tryFrom] at h
  repeat' split at h
  all_goals try exact RunResult.noConfusion h
  all_goals
    simp only [PhonemeGenerator.fromCharacterClass,
      PhonemeGenerator.fromCharacterClassFiltered, RunResult.ok.injEq,
      Prod.mk.injEq, List.drop_succ_cons, List.drop_zero] at h
  all_goals obtain ⟨-, rfl⟩ := h
  all_goals simp

/-- SyllableGenerator::parse: run the slot loop, then reject an empty slot
list with `NoInput`. -/
def SyllableGenerator.parse (src : List Char) (inv : phone.Inventory) :
    RunResult ParseError SyllableGenerator :=
  match SyllableGenerator.parseAux inv src with
  | .err e => .err e
  | .abort => .abort
  | .ok phonemes => if phonemes.isEmpty then .err .NoInput else .ok ⟨phonemes⟩

/-- SyllableGenerator::generate: draw one phoneme per slot in order,
advancing the random stream by one position per slot; the final stream
position is returned alongside the syllable parts. A slot draw that
panics aborts the whole generation. -/
def SyllableGenerator.genPhonemes (seq : Nat → Nat) :
    List PhonemeGenerator → Nat → Option (List phone.Phoneme × Nat)
  | [], pos => some ([], pos)
  | pg :: rest, pos =>
    match pg.generate (seq pos) with
    | none => none
    | some ph =>
      match SyllableGenerator.genPhonemes seq rest (pos + 1) with
      | none => none
      | some (phs, stop) => some (ph :: phs, stop)

/-- SyllableGenerator::generate assembles the drawn phonemes with
Syllable::new. -/
def SyllableGenerator.generate (sg : SyllableGenerator) (seq : Nat → Nat) (pos : Nat) :
    Option (phone.Syllable × Nat) :=
  match SyllableGenerator.genPhonemes seq sg.phonemes pos with
  | none => none
  | some (phs, stop) => some (phone.Syllable.new phs, stop)

/-- The textual rendering of a slot (Display for PhonemeGenerator): its
display glyph. -/
def PhonemeGenerator.render (pg : PhonemeGenerator) : List Char :=
  pg.display

/-- The textual rendering of a syllable generator (Display for
SyllableGenerator): the concatenation of its slot glyphs. -/
def SyllableGenerator.render (sg : SyllableGenerator) : List Char :=
  (sg.phonemes.map PhonemeGenerator.render).flatten

/-- The compiled form of a full pattern (gen.rs `WordGenerator`). -/
structure WordGenerator where
  syllables : List SyllableGenerator
deriving DecidableEq

/-- The for-loop body of WordGenerator::parse: parse each
whitespace-delimited segment into a syllable generator, stopping at the
first failure. -/
def WordGenerator.parseAux (inv : phone.Inventory) :
    List (List Char) → RunResult ParseError (List SyllableGenerator)
  | [] => .ok []
  | seg :: rest =>
    match SyllableGenerator.parse seg inv with
    | .err e => .err e
    | .abort => .abort
    | .ok sg =>
      match WordGenerator.parseAux inv rest with
      | .err e => .err e
      | .abort => .abort
      | .ok sgs => .ok (sg :: sgs)

/-- WordGenerator::parse: split the pattern on ASCII whitespace, parse
each segment, and reject a pattern with zero segments with `NoInput`. -/
def WordGenerator.parse (src : List Char) (inv : phone.Inventory) :
    RunResult ParseError WordGenerator :=
  match WordGenerator.parseAux inv (splitAsciiWhitespace src) with
  | .err e => .err e
  | .abort => .abort
  | .ok syllables => if syllables.isEmpty then .err .NoInput else .ok ⟨syllables⟩

/-- The loop of WordGenerator::generate: one syllable per compiled
syllable generator, in order, threading the random stream position. -/
def WordGenerator.genSyllables (seq : Nat → Nat) :
    List SyllableGenerator → Nat → Option (List phone.Syllable × Nat)
  | [], pos => some ([], pos)
  | sg :: rest, pos =>
    match sg.generate seq pos with
    | none => none
    | some (syl, stop) =>
      match WordGenerator.genSyllables seq rest stop with
      | none => none
      | some (syls, stop2) => some (syl :: syls, stop2)

/-- WordGenerator::generate: produce one word, an ordered sequence of
syllables, starting the random stream at position zero. -/
def WordGenerator.generate (wg : WordGenerator) (seq : Nat → Nat) :
    Option (List phone.Syllable) :=
  match WordGenerator.genSyllables seq wg.syllables 0 with
  | none => none
  | some (syls, _) => some syls

/-- The textual rendering of a word generator (Display for
WordGenerator): syllable renderings joined by single spaces. -/
def WordGenerator.render (wg : WordGenerator) : List Char :=
  List.intercalate [' '] (wg.syllables.map SyllableGenerator.render)

/-- The hand-written PartialEq of PhonemeGenerator in gen.rs: it compares
the candidate lists and the weights and ignores the display glyph. -/
def PhonemeGenerator.eqPartial (a b : PhonemeGenerator) : Bool :=
  a.choices == b.choices && a.weights == b.weights

/-- Element-wise list equality by a given comparison, as the derived
PartialEq of the Rust sequence containers performs it: equal lengths and
pairwise equal elements. -/
def listEqBy {α : Type} (eq : α → α → Bool) : List α → List α → Bool
  | [], [] => true
  | x :: xs, y :: ys => eq x y && listEqBy eq xs ys
  | _, _ => false

/-- The derived PartialEq of SyllableGenerator: element-wise over the slot
list, each slot compared with the hand-written PhonemeGenerator equality. -/
def SyllableGenerator.eqPartial (a b : SyllableGenerator) : Bool :=
  listEqBy PhonemeGenerator.eqPartial a.phonemes b.phonemes

/-- The derived PartialEq of WordGenerator: element-wise over the syllable
generator list. -/
def WordGenerator.eqPartial (a b : WordGenerator) : Bool :=
  listEqBy SyllableGenerator.eqPartial a.syllables b.syllables

end gen

/-- Whitespace normalization as the spec output contract describes it:
internal whitespace runs collapse to single spaces and leading and
trailing whitespace is removed; equivalently, the non-whitespace runs of
the pattern joined by single spaces. -/
def normalizeWhitespace (s : List Char) : List Char :=
  List.intercalate [' '] (gen.splitAsciiWhitespace s)

/-- The concatenation of the canonical codes of every catalog constant
across all three families, consonants then vowels then non-pulmonic
consonants, in catalog order. -/
def allPhonemeCodes : List Char :=
  phone.ALL_CONSONANTS.map phone.Consonant.code
    ++ phone.ALL_VOWELS.map phone.Vowel.code
    ++ phone.ALL_NON_PULMONIC_CONSTANTS.map phone.NonPulmonicConsonant.code

/-! ## Helper lemmas -/

/-- Filtering through an if-based filterMap is mapping over the filtered
list. -/
theorem aux_filterMap_if {α β : Type} (f : α → β) (q : α → Bool) (l : List α) :
    l.filterMap (fun x => if q x then some (f x) else none) = (l.filter q).map f := by
  induction l with
  | nil => rfl
  | cons x xs ih => by_cases h : q x <;> simp [List.filterMap_cons, List.filter_cons, h, ih]

/-- Element-wise boolean list equality holds whenever the element
comparison holds pairwise. -/
theorem aux_listEqBy_of_forall₂ {α : Type} (eq : α → α → Bool) :
    ∀ {xs ys : List α}, List.Forall₂ (fun x y => eq x y = true) xs ys →
      gen.listEqBy eq xs ys = true := by
  intro xs ys h
  induction h with
  | nil => rfl
  | cons h1 _ ih => simp [gen.listEqBy, h1, ih]

/-! ## Claim theorems -/

/-- C6: parsing the canonical code character of any catalog constant back
through the same family's char parser yields the original constant, for
consonants, vowels, and non-pulmonic consonants independently. -/
theorem c6_code_roundtrip :
    (∀ c : phone.Consonant, phone.Consonant.tryFrom c.code = .ok c) ∧
    (∀ v : phone.Vowel, phone.Vowel.tryFrom v.code = .ok v) ∧
    (∀ k : phone.NonPulmonicConsonant, phone.NonPulmonicConsonant.tryFrom k.code = .ok k) := by
  refine ⟨fun c => ?_, fun v => ?_, fun k => ?_⟩
  · cases c <;> rfl
  · cases v <;> rfl
  · cases k <;> rfl

/-- C7: no two phoneme constants across the three families share a
canonical code character: the set of all 97 codes has the same cardinality
as the concatenated list of all constants. -/
theorem c7_codes_distinct :
    allPhonemeCodes.toFinset.card = allPhonemeCodes.length ∧
    allPhonemeCodes.length = 97 := by
  have h : allPhonemeCodes.Nodup := by decide
  exact ⟨List.toFinset_card_of_nodup h, rfl⟩

/-- C9: a place-filter or manner-filter slot's candidate list is exactly
the subset of the given consonant list whose place (respectively manner)
equals the requested attribute, preserving order; and against the full
catalog the bilabial consonants are exactly P, B, M, BCap, Phi, Beta. -/
theorem c9_filtered_slot_candidates :
    (∀ (src : List Char) (opts : List phone.Consonant) (p : phone.Place),
      ((gen.PhonemeGenerator.fromCharacterClassFiltered phone.Phoneme.Consonant src opts
          (fun x => x.place == p)).1).choices
        = (opts.filter (fun x => x.place == p)).map phone.Phoneme.Consonant) ∧
    (∀ (src : List Char) (opts : List phone.Consonant) (m : phone.Manner),
      ((gen.PhonemeGenerator.fromCharacterClassFiltered phone.Phoneme.Consonant src opts
          (fun x => x.manner == m)).1).choices
        = (opts.filter (fun x => x.manner == m)).map phone.Phoneme.Consonant) ∧
    phone.ALL_CONSONANTS.filter (fun x => x.place == phone.Place.Bilabial)
      = [.P, .B, .M, .BCap, .Phi, .Beta] :=
  ⟨fun _ opts p => aux_filterMap_if _ _ opts,
   fun _ opts m => aux_filterMap_if _ _ opts,
   by decide⟩

/-- C1: the claim fails on the code. The unknown-character arm of
PhonemeGenerator::parse first calls Place::try_from, whose body is todo
and panics for every character, so WordGenerator::parse aborts on the
pattern "z" instead of returning the UnknownCharacter error that the
ParseError type declares (and that gen.rs never constructs). -/
theorem c1_unknown_character_aborts :
    gen.WordGenerator.parse ['z'] phone.Inventory.withEverything = .abort := by
  simp [gen.WordGenerator.parse, gen.WordGenerator.parseAux, gen.SyllableGenerator.parse,
    gen.SyllableGenerator.parseAux, gen.PhonemeGenerator.parse, gen.splitAsciiWhitespace,
    gen.isAsciiWs, phone.Place.tryFrom, phone.Manner.tryFrom]

/-- C2: the claim fails on the code. With an inventory whose consonant
list is empty, the pattern "C" parses successfully into a word generator
containing a single slot whose resolved candidate list is empty; parse
performs no emptiness check and raises no error. -/
theorem c2_empty_candidates_parse_ok :
    gen.WordGenerator.parse ['C'] ⟨[], [phone.Vowel.A], []⟩
      = .ok ⟨[⟨[⟨['C'], [], []⟩]⟩]⟩ := by
  simp [gen.WordGenerator.parse, gen.WordGenerator.parseAux, gen.SyllableGenerator.parse,
    gen.SyllableGenerator.parseAux, gen.PhonemeGenerator.parse, gen.splitAsciiWhitespace,
    gen.isAsciiWs, gen.PhonemeGenerator.fromCharacterClass]

/-- C10: the hand-written PartialEq of PhonemeGenerator compares only the
candidate list and the weights — two slots with equal choices and weights
but different display glyphs compare equal — and the derived element-wise
equality of WordGenerator (hence SyllableGenerator) therefore also
ignores every display glyph. -/
theorem c10_eq_ignores_display :
    (∀ (d1 d2 : List Char) (ch : List phone.Phoneme) (w : List Nat), d1 ≠ d2 →
      gen.PhonemeGenerator.eqPartial ⟨d1, ch, w⟩ ⟨d2, ch, w⟩ = true) ∧
    (∀ a b : gen.WordGenerator,
      List.Forall₂ (fun (s t : gen.SyllableGenerator) =>
        List.Forall₂ (fun (p q : gen.PhonemeGenerator) =>
          p.choices = q.choices ∧ p.weights = q.weights) s.phonemes t.phonemes)
        a.syllables b.syllables →
      gen.WordGenerator.eqPartial a b = true) := by
  constructor
  · intro d1 d2 ch w _
    simp [gen.PhonemeGenerator.eqPartial]
  · intro a b h
    unfold gen.WordGenerator.eqPartial
    apply aux_listEqBy_of_forall₂
    refine h.imp ?_
    intro s t hst
    unfold gen.SyllableGenerator.eqPartial
    apply aux_listEqBy_of_forall₂
    refine hst.imp ?_
    rintro p q ⟨h1, h2⟩
    simp [gen.PhonemeGenerator.eqPartial, h1, h2]

/-- Witness for C10 at concrete slots: two one-slot generators that differ
only in their display glyphs compare equal. -/
theorem c10_eq_ignores_display_witness :
    gen.PhonemeGenerator.eqPartial ⟨['C'], [], []⟩ ⟨['V'], [], []⟩ = true ∧
    gen.WordGenerator.eqPartial ⟨[⟨[⟨['C'], [], []⟩]⟩]⟩ ⟨[⟨[⟨['V'], [], []⟩]⟩]⟩ = true :=
  ⟨c10_eq_ignores_display.1 ['C'] ['V'] [] [] (by decide),
   c10_eq_ignores_display.2 ⟨[⟨[⟨['C'], [], []⟩]⟩]⟩ ⟨[⟨[⟨['V'], [], []⟩]⟩]⟩
     (.cons (.cons ⟨rfl, rfl⟩ .nil) .nil)⟩

/-- A slot with a non-empty candidate list always draws successfully, and
the drawn phoneme is one of its candidates: the modulo maps the random
value into bounds. -/
theorem aux_slot_generate_some (pg : gen.PhonemeGenerator) (d : Nat)
    (h : pg.choices ≠ []) :
    ∃ ph, pg.generate d = some ph ∧ ph ∈ pg.choices := by
  have hlen : 0 < pg.choices.length := List.length_pos.mpr h
  have hidx : d % pg.choices.length < pg.choices.length := Nat.mod_lt _ hlen
  refine ⟨pg.choices.get ⟨d % pg.choices.length, hidx⟩, ?_, List.get_mem _ _ _⟩
  simp [gen.PhonemeGenerator.generate, List.getElem?_eq_getElem hidx]

/-- Drawing over a list of slots with non-empty candidate lists succeeds
and produces one member of each slot's candidates, in slot order. -/
theorem aux_genPhonemes_some (seq : Nat → Nat) :
    ∀ (l : List gen.PhonemeGenerator) (pos : Nat), (∀ pg ∈ l, pg.choices ≠ []) →
      ∃ phs stop, gen.SyllableGenerator.genPhonemes seq l pos = some (phs, stop) ∧
        List.Forall₂ (fun ph (pg : gen.PhonemeGenerator) => ph ∈ pg.choices) phs l := by
  intro l
  induction l with
  | nil => exact fun pos _ => ⟨[], pos, rfl, .nil⟩
  | cons pg rest ih =>
    intro pos hne
    obtain ⟨ph, hph, hmem⟩ := aux_slot_generate_some pg (seq pos) (hne pg (by simp))
    obtain ⟨phs, stop, hrec, hfa⟩ := ih (pos + 1) (fun x hx => hne x (by simp [hx]))
    exact ⟨ph :: phs, stop,
      by simp [gen.SyllableGenerator.genPhonemes, hph, hrec], .cons hmem hfa⟩

/-- Generating over syllable generators whose slots all have non-empty
candidate lists succeeds and yields one syllable per generator, each
syllable holding one candidate member per slot, in order. -/
theorem aux_genSyllables_some (seq : Nat → Nat) :
    ∀ (l : List gen.SyllableGenerator) (pos : Nat),
      (∀ sg ∈ l, ∀ pg ∈ sg.phonemes, pg.choices ≠ []) →
      ∃ syls stop, gen.WordGenerator.genSyllables seq l pos = some (syls, stop) ∧
        List.Forall₂ (fun (syl : phone.Syllable) (sg : gen.SyllableGenerator) =>
          List.Forall₂ (fun ph (pg : gen.PhonemeGenerator) => ph ∈ pg.choices)
            syl.parts sg.phonemes) syls l := by
  intro l
  induction l with
  | nil => exact fun pos _ => ⟨[], pos, rfl, .nil⟩
  | cons sg rest ih =>
    intro pos hne
    obtain ⟨phs, stop, hgen, hfa⟩ :=
      aux_genPhonemes_some seq sg.phonemes pos (hne sg (by simp))
    obtain ⟨syls, stop2, hrec, hfa2⟩ := ih stop (fun x hx => hne x (by simp [hx]))
    refine ⟨phone.Syllable.new phs :: syls, stop2, ?_, .cons hfa hfa2⟩
    simp [gen.WordGenerator.genSyllables, gen.SyllableGenerator.generate, hgen, hrec]

/-- C3 counterexample: over an inventory with no consonants the pattern
"C" parses successfully, yet generating from the resulting word generator
fails — the slot draw computes an index modulo zero, a Rust panic — so
generation does not succeed for every successfully parsed WordGenerator. -/
theorem c3_counterexample :
    gen.WordGenerator.parse ['C'] ⟨[], [], []⟩ = .ok ⟨[⟨[⟨['C'], [], []⟩]⟩]⟩ ∧
    gen.WordGenerator.generate ⟨[⟨[⟨['C'], [], []⟩]⟩]⟩ (fun _ => 0) = none := by
  constructor
  · simp [gen.WordGenerator.parse, gen.WordGenerator.parseAux, gen.SyllableGenerator.parse,
      gen.SyllableGenerator.parseAux, gen.PhonemeGenerator.parse, gen.splitAsciiWhitespace,
      gen.isAsciiWs, gen.PhonemeGenerator.fromCharacterClass]
  · rfl

/-- C3 (amended): for every WordGenerator obtained from a successful parse
all of whose slots have non-empty candidate lists, generation succeeds for
every random source: every index computation is well-defined and in
bounds. -/
theorem c3_generate_succeeds (src : List Char) (inv : phone.Inventory)
    (wg : gen.WordGenerator) (seq : Nat → Nat)
    (hparse : gen.WordGenerator.parse src inv = .ok wg)
    (hne : ∀ sg ∈ wg.syllables, ∀ pg ∈ sg.phonemes, pg.choices ≠ []) :
    ∃ w, wg.generate seq = some w := by
  obtain ⟨syls, stop, hgen, -⟩ := aux_genSyllables_some seq wg.syllables 0 hne
  exact ⟨syls, by simp [gen.WordGenerator.generate, hgen]⟩

/-- Witness for C3: the pattern "CV" over the full catalog parses, has
non-empty slots, and generates successfully. -/
theorem c3_generate_succeeds_witness :
    ∃ w, gen.WordGenerator.generate
      ⟨[⟨[⟨['C'], phone.ALL_CONSONANTS.map phone.Phoneme.Consonant, []⟩,
          ⟨['V'], phone.ALL_VOWELS.map phone.Phoneme.Vowel, []⟩]⟩]⟩
      (fun _ => 0) = some w :=
  c3_generate_succeeds ['C', 'V'] phone.Inventory.withEverything _ (fun _ => 0)
    (by simp [gen.WordGenerator.parse, gen.WordGenerator.parseAux, gen.SyllableGenerator.parse,
      gen.SyllableGenerator.parseAux, gen.PhonemeGenerator.parse, gen.splitAsciiWhitespace,
      gen.isAsciiWs, gen.PhonemeGenerator.fromCharacterClass, phone.Inventory.withEverything])
    (by decide)

/-- C4 counterexample: over an inventory with no consonants (but one
vowel) the pattern "C" parses successfully, yet generate returns no word
at all — it panics on the empty slot — so it does not return one syllable
per compiled syllable generator for every successfully parsed
WordGenerator. -/
theorem c4_counterexample :
    gen.WordGenerator.parse ['C'] ⟨[], [phone.Vowel.I], []⟩ = .ok ⟨[⟨[⟨['C'], [], []⟩]⟩]⟩ ∧
    gen.WordGenerator.generate ⟨[⟨[⟨['C'], [], []⟩]⟩]⟩ (fun _ => 1) = none := by
  constructor
  · simp [gen.WordGenerator.parse, gen.WordGenerator.parseAux, gen.SyllableGenerator.parse,
      gen.SyllableGenerator.parseAux, gen.PhonemeGenerator.parse, gen.splitAsciiWhitespace,
      gen.isAsciiWs, gen.PhonemeGenerator.fromCharacterClass]
  · rfl

/-- C4 (amended): for every WordGenerator obtained from a successful parse
all of whose slots have non-empty candidate lists, and every random
source, generate returns a word with exactly one syllable per compiled
syllable generator, in order, each syllable holding exactly one phoneme
per slot in slot order, every phoneme a member of its slot's resolved
candidate list. -/
theorem c4_generated_word_structure (src : List Char) (inv : phone.Inventory)
    (wg : gen.WordGenerator) (seq : Nat → Nat)
    (hparse : gen.WordGenerator.parse src inv = .ok wg)
    (hne : ∀ sg ∈ wg.syllables, ∀ pg ∈ sg.phonemes, pg.choices ≠ []) :
    ∃ w, wg.generate seq = some w ∧
      List.Forall₂ (fun (syl : phone.Syllable) (sg : gen.SyllableGenerator) =>
        List.Forall₂ (fun ph (pg : gen.PhonemeGenerator) => ph ∈ pg.choices)
          syl.parts sg.phonemes) w wg.syllables := by
  obtain ⟨syls, stop, hgen, hfa⟩ := aux_genSyllables_some seq wg.syllables 0 hne
  exact ⟨syls, by simp [gen.WordGenerator.generate, hgen], hfa⟩

/-- Witness for C4: the pattern "CV" over a one-consonant, one-vowel
inventory parses, has non-empty slots, and generates a structurally
correct word. -/
theorem c4_generated_word_structure_witness :
    ∃ w, gen.WordGenerator.generate
      ⟨[⟨[⟨['C'], [phone.Phoneme.Consonant .P], []⟩,
          ⟨['V'], [phone.Phoneme.Vowel .A], []⟩]⟩]⟩ (fun _ => 3) = some w ∧
      List.Forall₂ (fun (syl : phone.Syllable) (sg : gen.SyllableGenerator) =>
        List.Forall₂ (fun ph (pg : gen.PhonemeGenerator) => ph ∈ pg.choices)
          syl.parts sg.phonemes) w
        [⟨[⟨['C'], [phone.Phoneme.Consonant .P], []⟩,
           ⟨['V'], [phone.Phoneme.Vowel .A], []⟩]⟩] :=
  c4_generated_word_structure ['C', 'V'] ⟨[.P], [.A], []⟩ _ (fun _ => 3)
    (by simp [gen.WordGenerator.parse, gen.WordGenerator.parseAux, gen.SyllableGenerator.parse,
      gen.SyllableGenerator.parseAux, gen.PhonemeGenerator.parse, gen.splitAsciiWhitespace,
      gen.isAsciiWs, gen.PhonemeGenerator.fromCharacterClass])
    (by decide)

/-- Every successful single-slot parse takes its display glyph from the
first remaining character and leaves exactly the tail of its input. -/
theorem aux_phoneme_parse_ok (src : List Char) (inv : phone.Inventory)
    (pg : gen.PhonemeGenerator) (rest : List Char)
    (h : gen.PhonemeGenerator.parse src inv = .ok (pg, rest)) :
    pg.display = src.take 1 ∧ rest = src.drop 1 := by
  cases src with
  | nil => exact RunResult.noConfusion h
  | cons c tail =>
    simp only [gen.PhonemeGenerator.parse, phone.Place.tryFrom, phone.Manner.tryFrom] at h
    repeat' split at h
    all_goals try exact RunResult.noConfusion h
    all_goals
      simp only [gen.PhonemeGenerator.fromCharacterClass, RunResult.ok.injEq,
        Prod.mk.injEq] at h
    all_goals obtain ⟨rfl, rfl⟩ := h
    all_goals exact ⟨rfl, rfl⟩

/-- The slot loop of SyllableGenerator::parse consumes exactly its input:
concatenating the display glyphs of the parsed slots reproduces the
consumed text (bounded-length version for induction). -/
theorem aux_syl_parseAux_render_bounded (inv : phone.Inventory) :
    ∀ (n : Nat) (rem : List Char), rem.length ≤ n →
      ∀ phs, gen.SyllableGenerator.parseAux inv rem = .ok phs →
        (phs.map gen.PhonemeGenerator.render).flatten = rem := by
  intro n
  induction n with
  | zero =>
    intro rem hlen phs h
    obtain rfl : rem = [] := List.eq_nil_of_length_eq_zero (Nat.le_zero.mp hlen)
    simp only [gen.SyllableGenerator.parseAux] at h
    cases h
    rfl
  | succ n ih =>
    intro rem hlen phs h
    cases rem with
    | nil =>
      simp only [gen.SyllableGenerator.parseAux] at h
      cases h
      rfl
    | cons c tail =>
      simp only [gen.SyllableGenerator.parseAux] at h
      split at h
      · exact RunResult.noConfusion h
      · exact RunResult.noConfusion h
      · rename_i ph leftover hparse
        split at h
        · exact RunResult.noConfusion h
        · exact RunResult.noConfusion h
        · rename_i phs0 hrec
          cases h
          obtain ⟨hdisp, hleft⟩ := aux_phoneme_parse_ok _ _ _ _ hparse
          simp only [List.drop_succ_cons, List.drop_zero] at hleft
          rw [hleft] at hrec
          have hflat := ih tail (Nat.le_of_succ_le_succ hlen) phs0 hrec
          simp [gen.PhonemeGenerator.render, hdisp, hflat, List.take_succ_cons,
            List.take_zero]

/-- The slot loop of SyllableGenerator::parse consumes exactly its input. -/
theorem aux_syl_parseAux_render (inv : phone.Inventory) (rem : List Char)
    (phs : List gen.PhonemeGenerator)
    (h : gen.SyllableGenerator.parseAux inv rem = .ok phs) :
    (phs.map gen.PhonemeGenerator.render).flatten = rem :=
  aux_syl_parseAux_render_bounded inv rem.length rem le_rfl phs h

/-- Rendering a successfully parsed syllable generator reproduces the
segment text it was parsed from. -/
theorem aux_syl_parse_render (seg : List Char) (inv : phone.Inventory)
    (sg : gen.SyllableGenerator)
    (h : gen.SyllableGenerator.parse seg inv = .ok sg) :
    sg.render = seg := by
  unfold gen.SyllableGenerator.parse at h
  split at h
  · exact RunResult.noConfusion h
  · exact RunResult.noConfusion h
  · rename_i phonemes heq
    split at h
    · exact RunResult.noConfusion h
    · cases h
      exact aux_syl_parseAux_render inv seg phonemes heq

/-- The segment loop of WordGenerator::parse compiles each segment into a
syllable generator whose rendering is that segment. -/
theorem aux_word_parseAux_render (inv : phone.Inventory) :
    ∀ (segs : List (List Char)) (sgs : List gen.SyllableGenerator),
      gen.WordGenerator.parseAux inv segs = .ok sgs →
      sgs.map gen.SyllableGenerator.render = segs := by
  intro segs
  induction segs with
  | nil =>
    intro sgs h
    simp only [gen.WordGenerator.parseAux] at h
    cases h
    rfl
  | cons seg rest ih =>
    intro sgs h
    simp only [gen.WordGenerator.parseAux] at h
    split at h
    · exact RunResult.noConfusion h
    · exact RunResult.noConfusion h
    · rename_i sg hseg
      split at h
      · exact RunResult.noConfusion h
      · exact RunResult.noConfusion h
      · rename_i sgs0 hrest
        cases h
        simp [aux_syl_parse_render seg inv sg hseg, ih sgs0 hrest]

/-- C5: the Display rendering of a successfully parsed WordGenerator —
each syllable's slot glyphs concatenated, syllables joined by single
spaces — equals the original pattern text with whitespace runs normalized
to single spaces and leading and trailing whitespace removed. -/
theorem c5_render_roundtrip (src : List Char) (inv : phone.Inventory)
    (wg : gen.WordGenerator)
    (h : gen.WordGenerator.parse src inv = .ok wg) :
    wg.render = normalizeWhitespace src := by
  unfold gen.WordGenerator.parse at h
  split at h
  · exact RunResult.noConfusion h
  · exact RunResult.noConfusion h
  · rename_i syls heq
    split at h
    · exact RunResult.noConfusion h
    · cases h
      unfold gen.WordGenerator.render normalizeWhitespace
      rw [aux_word_parseAux_render inv _ _ heq]

/-- Witness for C5: the pattern " C  V" (leading space, doubled internal
whitespace) over a one-consonant, one-vowel inventory renders back as
"C V". -/
theorem c5_render_roundtrip_witness :
    gen.WordGenerator.render
      ⟨[⟨[⟨['C'], [phone.Phoneme.Consonant .P], []⟩]⟩,
        ⟨[⟨['V'], [phone.Phoneme.Vowel .A], []⟩]⟩]⟩
      = normalizeWhitespace [' ', 'C', ' ', ' ', 'V'] :=
  c5_render_roundtrip [' ', 'C', ' ', ' ', 'V'] ⟨[.P], [.A], []⟩ _
    (by simp [gen.WordGenerator.parse, gen.WordGenerator.parseAux,
      gen.SyllableGenerator.parse, gen.SyllableGenerator.parseAux,
      gen.PhonemeGenerator.parse, gen.splitAsciiWhitespace, gen.isAsciiWs,
      gen.PhonemeGenerator.fromCharacterClass])

/-- A pattern made only of ASCII whitespace splits into zero segments. -/
theorem aux_split_ws (s : List Char) (h : ∀ c ∈ s, gen.isAsciiWs c) :
    gen.splitAsciiWhitespace s = [] := by
  induction s with
  | nil => simp [gen.splitAsciiWhitespace]
  | cons c rest ih =>
    have hc : gen.isAsciiWs c := h c (by simp)
    simp only [gen.splitAsciiWhitespace, hc, if_true]
    exact ih (fun x hx => h x (by simp [hx]))

/-- C8: WordGenerator::parse returns the NoInput error on the empty
pattern and on every pattern made only of (ASCII) whitespace characters,
for every inventory. -/
theorem c8_noinput_on_whitespace (inv : phone.Inventory) :
    gen.WordGenerator.parse [] inv = .err .NoInput ∧
    ∀ s : List Char, (∀ c ∈ s, gen.isAsciiWs c) →
      gen.WordGenerator.parse s inv = .err .NoInput := by
  have key : ∀ s : List Char, (∀ c ∈ s, gen.isAsciiWs c) →
      gen.WordGenerator.parse s inv = .err .NoInput := by
    intro s hs
    unfold gen.WordGenerator.parse
    rw [aux_split_ws s hs]
    simp [gen.WordGenerator.parseAux]
  exact ⟨key [] (by simp), key⟩

/-- Witness for C8: a pattern of one space, one tab, and one carriage
return fails with NoInput over the full catalog. -/
theorem c8_noinput_on_whitespace_witness :
    gen.WordGenerator.parse [' ', '\t', '\r'] phone.Inventory.withEverything
      = .err .NoInput :=
  (c8_noinput_on_whitespace phone.Inventory.withEverything).2 [' ', '\t', '\r'] (by decide)
